import Mathlib

/-!
Verification of the sora-watermark-remover core: a shallow embedding of the
position scheduler and region geometry (`src/video_analyzer.py`), the
feathered-mask builder, the two region-blur transforms and the frame loop
(`src/watermark_processor.py`), with theorems settling the specification
claims about them.

Conventions: Python floats that only flow through arithmetic are modelled as
rationals (`ℚ`); pixel coordinates are `Int` where the source can produce
negative values and `Nat` where it cannot; the external OpenCV filters
(`cv2.GaussianBlur`, `cv2.bilateralFilter`) are opaque parameters, since only
the repository's own slicing and blending logic is under verification.
-/

namespace SoraWatermark

/-- `VideoAnalyzer.POSITION_COUNT` (src/video_analyzer.py line 62). -/
def POSITION_COUNT : Nat := 3

/-- `VideoAnalyzer.CYCLE_FRAMES` (src/video_analyzer.py line 63). -/
def CYCLE_FRAMES : Nat := 227

/-- `WatermarkPosition` dataclass (src/video_analyzer.py): a watermark
region with top-left corner `(x, y)` and size `width × height`.  All four
fields are Python ints; `x` and `y` can be negative for small frames, so we
use `Int`. -/
structure WatermarkPosition where
  x : Int
  y : Int
  width : Int
  height : Int
deriving Repr, DecidableEq

/-- `VideoAnalyzer.get_watermark_positions` (src/video_analyzer.py lines
107–152): the three candidate watermark rectangles for a `w × h` frame and a
`wmWidth × wmHeight` watermark box.  Index 0 = top-left, 1 = center-right,
2 = bottom-left.  The local constants mirror the source:
`left_margin_top = 20`, `left_margin_bottom = 25`, `right_margin = 10`,
`top_offset = 75`, `center_y = 592`, `bottom_offset = 260`. -/
def getWatermarkPositions (w h : Int) (wmWidth wmHeight : Int) :
    List WatermarkPosition :=
  [ { x := 20, y := 75, width := wmWidth, height := wmHeight },
    { x := w - wmWidth - 10, y := 592, width := wmWidth, height := wmHeight },
    { x := 25, y := h - 260, width := wmWidth, height := wmHeight } ]

/-- `VideoAnalyzer.get_position_index_for_frame` (src/video_analyzer.py
lines 154–177): the active position index for a frame.  The source computes
`cycle_frame = frame_number % CYCLE_FRAMES` and returns 0 for
`cycle_frame < 66`, 1 for `cycle_frame < 146`, otherwise 2.  The `fps`
argument is received but never used (the docstring itself says "unused, kept
for API compatibility"). -/
def getPositionIndexForFrame (frameNumber : Nat) (fps : ℚ) : Nat :=
  let cycleFrame := frameNumber % CYCLE_FRAMES
  if cycleFrame < 66 then 0
  else if cycleFrame < 146 then 1
  else 2

/-- The configuration state stored by `WatermarkProcessor.__init__`
(src/watermark_processor.py lines 24–55). -/
structure ProcessorConfig where
  inputPath : String
  outputPath : String
  blurIntensity : Int
  previewDuration : Option ℚ
  wmWidth : Int
  wmHeight : Int
deriving Repr

/-- `WatermarkProcessor.__init__` (src/watermark_processor.py lines 24–55):
raises `ValueError` when `blur_intensity <= 0 or blur_intensity % 2 == 0`,
otherwise stores the configuration unchecked.  Python `%` with a positive
modulus agrees with `Int.emod`.  Modelled as `Except` where `.error` is the
raised `ValueError`. -/
def watermarkProcessorInit (inputPath outputPath : String)
    (blurIntensity : Int) (previewDuration : Option ℚ)
    (wmWidth wmHeight : Int) : Except String ProcessorConfig :=
  if blurIntensity ≤ 0 ∨ blurIntensity % 2 = 0 then
    Except.error "Blur intensity must be a positive odd number"
  else
    Except.ok
      { inputPath := inputPath
        outputPath := outputPath
        blurIntensity := blurIntensity
        previewDuration := previewDuration
        wmWidth := wmWidth
        wmHeight := wmHeight }

/-- A video frame, as the pipeline sees it: a 3-channel pixel grid.  The
pixel grid is total (a function of row, column, channel); bounds `H × W` are
carried separately, exactly as a NumPy array carries its shape. -/
def FrameF : Type := Nat → Nat → Fin 3 → ℚ

/-- Python slice-bound normalisation for an axis of length `n`: a negative
bound counts from the end (`n + i`, clamped below at 0), a non-negative
bound is clamped above at `n`.  This is the semantics NumPy applies to the
bounds of `frame[y:y_end, x:x_end]`. -/
def pySlice (i : Int) (n : Nat) : Nat :=
  if i < 0 then ((n : Int) + i).toNat else min i.toNat n

/-- `alpha = i / feather_size` from the loop body of
`WatermarkProcessor._create_feathered_mask` (src/watermark_processor.py
line 240). -/
def featherAlpha (i featherSize : Nat) : ℚ := (i : ℚ) / (featherSize : ℚ)

/-- One iteration (`i`) of the feathering loop
(src/watermark_processor.py lines 239–246): when `i < height` and
`i < width`, rows `i` and `height-1-i` and columns `i` and `width-1-i` of
the mask are each multiplied in place by `alpha`.  A cell lying on several
of those lines (e.g. a corner) is multiplied once per line, matching the
four sequential in-place NumPy updates. -/
def featherStep (height width featherSize i : Nat) (m : Nat → Nat → ℚ) :
    Nat → Nat → ℚ :=
  fun r c =>
    if i < height ∧ i < width then
      m r c * (if r = i then featherAlpha i featherSize else 1)
            * (if r = height - 1 - i then featherAlpha i featherSize else 1)
            * (if c = i then featherAlpha i featherSize else 1)
            * (if c = width - 1 - i then featherAlpha i featherSize else 1)
    else m r c

/-- The feathering loop after its first `n` iterations, starting from the
all-ones mask `np.ones((height, width))`. -/
def maskAux (height width featherSize : Nat) : Nat → (Nat → Nat → ℚ)
  | 0 => fun _ _ => 1
  | n + 1 => featherStep height width featherSize n
      (maskAux height width featherSize n)

/-- `WatermarkProcessor._create_feathered_mask` (src/watermark_processor.py
lines 218–248): starts from `np.ones((height, width))` and runs the
feathering loop for `i in range(feather_size)`.  The result maps a (row,
column) cell to its blend weight. -/
def createFeatheredMask (width height : Nat) (featherSize : Nat) :
    Nat → Nat → ℚ :=
  maskAux height width featherSize featherSize

/-- The multiplicative factor that iteration `i` of the feathering loop
applies to cell `(r, c)`; `featherStep height width featherSize i m r c`
equals `m r c * featherFactor height width featherSize r c i`. -/
def featherFactor (height width featherSize r c i : Nat) : ℚ :=
  if i < height ∧ i < width then
    (if r = i then featherAlpha i featherSize else 1)
    * (if r = height - 1 - i then featherAlpha i featherSize else 1)
    * (if c = i then featherAlpha i featherSize else 1)
    * (if c = width - 1 - i then featherAlpha i featherSize else 1)
  else 1

/-- The blend-weight contribution of a single axis: the product, over the
feathering iterations, of the two line factors (offsets `i` and `n - 1 - i`
from the ends of an axis of extent `n`) that hit coordinate `d`.  When the
feather fits the mask (`featherSize ≤ height` and `featherSize ≤ width`)
the mask factorises as the product of its row and column edge weights. -/
def edgeWeight (n featherSize d : Nat) : ℚ :=
  ∏ i ∈ Finset.range featherSize,
    ((if d = i then featherAlpha i featherSize else 1) *
      (if d = n - 1 - i then featherAlpha i featherSize else 1))

/-- `_apply_blur_to_region` common to both processor classes
(src/watermark_processor.py lines 168–216 and 258–312), parameterised by
the region-blur operator `blurFn` (Gaussian for the standard class,
bilateral-then-double-Gaussian for the advanced one) and the feather size
(10 standard, 15 advanced).  Mirrors the source: `y_end = min(y + h, H)`,
`x_end = min(x + w, W)`; if `y_end <= y or x_end <= x` the untouched copy
of the frame is returned; otherwise the ROI `frame[y:y_end, x:x_end]` is
extracted with Python slice semantics, blurred, and written back blended
with the feathered mask; all cells outside the written slice keep the
copied frame's values. -/
def applyBlurToRegion (blurFn : FrameF → FrameF) (featherSize : Nat)
    (H W : Nat) (frame : FrameF) (p : WatermarkPosition) : FrameF :=
  let yEnd : Int := min (p.y + p.height) (H : Int)
  let xEnd : Int := min (p.x + p.width) (W : Int)
  if yEnd ≤ p.y ∨ xEnd ≤ p.x then frame
  else
    let rLo := pySlice p.y H
    let rHi := pySlice yEnd H
    let cLo := pySlice p.x W
    let cHi := pySlice xEnd W
    let roi : FrameF := fun r c ch => frame (rLo + r) (cLo + c) ch
    let blurred := blurFn roi
    let mask := createFeatheredMask (cHi - cLo) (rHi - rLo) featherSize
    fun r c ch =>
      if rLo ≤ r ∧ r < rHi ∧ cLo ≤ c ∧ c < cHi then
        blurred (r - rLo) (c - cLo) ch * mask (r - rLo) (c - cLo)
          + roi (r - rLo) (c - cLo) ch * (1 - mask (r - rLo) (c - cLo))
      else frame r c ch

/-- `WatermarkProcessor._apply_blur_to_region` (src/watermark_processor.py
lines 168–216): Gaussian blur of the ROI with the configured kernel,
blended with a feather-10 mask.  `gauss k` stands for
`cv2.GaussianBlur(·, (k, k), 0)`, an external collaborator kept opaque. -/
def standardApplyBlurToRegion (gauss : Nat → FrameF → FrameF)
    (blurIntensity : Nat) (H W : Nat) (frame : FrameF)
    (p : WatermarkPosition) : FrameF :=
  applyBlurToRegion (gauss blurIntensity) 10 H W frame p

/-- `AdvancedWatermarkProcessor._apply_blur_to_region`
(src/watermark_processor.py lines 258–312): bilateral filter
(`cv2.bilateralFilter(·, 9, 75, 75)`, opaque) followed by two Gaussian
passes, blended with a feather-15 mask. -/
def advancedApplyBlurToRegion (bilateral : FrameF → FrameF)
    (gauss : Nat → FrameF → FrameF) (blurIntensity : Nat) (H W : Nat)
    (frame : FrameF) (p : WatermarkPosition) : FrameF :=
  applyBlurToRegion
    (fun roi => gauss blurIntensity (gauss blurIntensity (bilateral roi)))
    15 H W frame p

/-- Membership in the rectangle obtained by clamping position `p` to an
`H × W` frame: row `r`, column `c` (both ≥ 0 by type) with
`p.y ≤ r < min (p.y + p.height) H` and `p.x ≤ c < min (p.x + p.width) W`. -/
def insideClampedRegion (H W : Nat) (p : WatermarkPosition)
    (r c : Nat) : Prop :=
  p.y ≤ (r : Int) ∧ (r : Int) < min (p.y + p.height) (H : Int) ∧
  p.x ≤ (c : Int) ∧ (c : Int) < min (p.x + p.width) (W : Int)

instance (H W : Nat) (p : WatermarkPosition) (r c : Nat) :
    Decidable (insideClampedRegion H W p r c) := by
  unfold insideClampedRegion; infer_instance

/-- The frame loop of `WatermarkProcessor.process`
(src/watermark_processor.py lines 100–125): starting at `frame_number = n`,
while `frame_number < total` read a frame (stop when the source is
exhausted), transform it with `t`, emit it, and report
`progress_callback(frame_number + 1, total)`.  Returns the emitted frames
and the list of `current` values passed to the callback, in order.  The
source checks `frame_number < total` before reading; matching on the frame
list first is equivalent, since when the source is exhausted both orders
yield no further output or callback. -/
def processFrames (t : FrameF → FrameF) (total : Nat) :
    List FrameF → Nat → List FrameF × List Nat
  | [], _ => ([], [])
  | f :: rest, n =>
    if n < total then
      let tail := processFrames t total rest (n + 1)
      (t f :: tail.1, (n + 1) :: tail.2)
    else ([], [])

/-- The `total_frames` computed by `WatermarkProcessor.process`
(src/watermark_processor.py lines 93–98): the metadata frame count, capped
by the preview frame limit when a preview duration is set. -/
def effectiveTotalFrames (totalFrameCount : Nat)
    (frameLimit : Option Nat) : Nat :=
  match frameLimit with
  | none => totalFrameCount
  | some limit => min totalFrameCount limit

/-! ## Claim theorems -/

/-- C1 (counterexample).  The claim says the scheduler computes
`floor((frame_number / fps) / cycle_interval) mod 3`, mapping frames 0–68 of
a 30 fps, 2.3 s-interval source to index 0.  The code uses a fixed
227-frame table instead: at frame 68 it returns 1, while the claimed
formula yields `floor((68/30)/2.3) mod 3 = 0`. -/
theorem position_index_frame68_mismatch :
    getPositionIndexForFrame 68 30 = 1 ∧
    ⌊(68 / 30 / (23 / 10) : ℚ)⌋ % 3 = 0 := by
  constructor
  · decide
  · have h : (68 / 30 / (23 / 10) : ℚ) = 68 / 69 := by norm_num
    have hf : ⌊(68 / 69 : ℚ)⌋ = 0 := by
      rw [Int.floor_eq_zero_iff, Set.mem_Ico]
      constructor <;> norm_num
    rw [h, hf]
    norm_num

/-- C1 (amended).  The scheduler ignores `fps` and works purely on
`frame_number mod 227`: frames with residue below 66 map to index 0,
residues 66–145 to index 1, residues 146–226 to index 2; hence for any
source frames 0–65 use index 0, 66–145 index 1, 146–226 index 2, and
227–292 index 0 again. -/
theorem position_index_ranges (fps : ℚ) (n : Nat) :
    (n < 66 → getPositionIndexForFrame n fps = 0) ∧
    (66 ≤ n → n < 146 → getPositionIndexForFrame n fps = 1) ∧
    (146 ≤ n → n < 227 → getPositionIndexForFrame n fps = 2) ∧
    (227 ≤ n → n < 293 → getPositionIndexForFrame n fps = 0) := by
  simp only [getPositionIndexForFrame, CYCLE_FRAMES]
  refine ⟨fun h => ?_, fun h1 h2 => ?_, fun h1 h2 => ?_, fun h1 h2 => ?_⟩ <;>
    split_ifs with hc1 hc2 <;> omega

/-- C1 (witness). -/
theorem position_index_ranges_witness :
    getPositionIndexForFrame 65 30 = 0 ∧
    getPositionIndexForFrame 66 30 = 1 ∧
    getPositionIndexForFrame 146 30 = 2 ∧
    getPositionIndexForFrame 227 30 = 0 :=
  ⟨(position_index_ranges 30 65).1 (by norm_num),
   (position_index_ranges 30 66).2.1 (by norm_num) (by norm_num),
   (position_index_ranges 30 146).2.2.1 (by norm_num) (by norm_num),
   (position_index_ranges 30 227).2.2.2 (by norm_num) (by norm_num)⟩

/-- C9 (counterexample).  The claim says the scheduler is eventually
periodic with period `3 * round(2.3 * 30) = 207` frames.  It is not: the
code's true period is 227, and since `gcd(227, 207) = 1` no tail of the
schedule is 207-periodic.  Concretely, for any proposed threshold `N`, the
frame `227 * N` maps to index 0 while frame `227 * N + 207` maps to 2. -/
theorem scheduler_not_207_periodic :
    ¬ ∃ N : Nat, ∀ f : Nat, N ≤ f →
      getPositionIndexForFrame f 30 = getPositionIndexForFrame (f + 207) 30 := by
  rintro ⟨N, h⟩
  have h1 := h (227 * N) (by omega)
  have e1 : (227 * N) % 227 = 0 := by omega
  have e2 : (227 * N + 207) % 227 = 207 := by omega
  simp only [getPositionIndexForFrame, CYCLE_FRAMES, e1, e2] at h1
  norm_num at h1

/-- C9 (amended).  The scheduler is periodic with period
`CYCLE_FRAMES = 227` frames, for every frame number (not merely eventually)
and every fps. -/
theorem scheduler_periodic_227 (n : Nat) (fps : ℚ) :
    getPositionIndexForFrame (n + 227) fps = getPositionIndexForFrame n fps := by
  have e : (n + 227) % 227 = n % 227 := by omega
  simp only [getPositionIndexForFrame, CYCLE_FRAMES, e]

/-- C10.  The `fps` argument has no influence on the scheduler's result,
which depends only on `frame_number mod 227`. -/
theorem position_index_fps_independent :
    (∀ (n : Nat) (fps1 fps2 : ℚ),
      getPositionIndexForFrame n fps1 = getPositionIndexForFrame n fps2) ∧
    (∀ (n m : Nat) (fps1 fps2 : ℚ), n % 227 = m % 227 →
      getPositionIndexForFrame n fps1 = getPositionIndexForFrame m fps2) := by
  constructor
  · intro n fps1 fps2
    rfl
  · intro n m fps1 fps2 hmod
    simp only [getPositionIndexForFrame, CYCLE_FRAMES, hmod]

/-- C10 (witness). -/
theorem position_index_fps_independent_witness :
    getPositionIndexForFrame 5 30 = getPositionIndexForFrame 5 60 ∧
    getPositionIndexForFrame 0 30 = getPositionIndexForFrame 227 60 :=
  ⟨position_index_fps_independent.1 5 30 60,
   position_index_fps_independent.2 0 227 30 60 (by norm_num)⟩

/-- C5 (counterexample).  The claim says region 1's x-coordinate strictly
decreases as the frame width grows.  It strictly increases: at width 200 it
is `200 - 139 - 10 = 51`, at width 300 it is `151`, and `151 < 51` fails. -/
theorem region1_x_not_decreasing :
    ¬ (((getWatermarkPositions 300 1080 139 51).get ⟨1, by norm_num [getWatermarkPositions]⟩).x
        < ((getWatermarkPositions 200 1080 139 51).get ⟨1, by norm_num [getWatermarkPositions]⟩).x) := by
  decide

/-- C5 (amended).  With frame height, box width and box height held fixed,
region 1's x-coordinate `w - box_width - 10` is strictly increasing in the
frame width (right-anchored). -/
theorem region1_x_strict_mono (h bw bh w1 w2 : Int) (hlt : w1 < w2) :
    ((getWatermarkPositions w1 h bw bh).get ⟨1, by norm_num [getWatermarkPositions]⟩).x
      < ((getWatermarkPositions w2 h bw bh).get ⟨1, by norm_num [getWatermarkPositions]⟩).x := by
  show w1 - bw - 10 < w2 - bw - 10
  omega

/-- C5 (witness). -/
theorem region1_x_strict_mono_witness :
    ((getWatermarkPositions 200 1080 139 51).get ⟨1, by norm_num [getWatermarkPositions]⟩).x
      < ((getWatermarkPositions 300 1080 139 51).get ⟨1, by norm_num [getWatermarkPositions]⟩).x :=
  region1_x_strict_mono 1080 139 51 200 300 (by norm_num)

/-- C6 (counterexample).  The claim says every returned rectangle has
`x ≥ 0` and `y ≥ 0` whenever frame and box dimensions are positive.  For a
100 × 100 frame with the default 139 × 51 box (all positive), region 1 has
`x = 100 - 139 - 10 = -49 < 0`. -/
theorem positions_nonneg_counterexample :
    ((getWatermarkPositions 100 100 139 51).get ⟨1, by norm_num [getWatermarkPositions]⟩).x = -49 ∧
    (-49 : Int) < 0 := by
  decide

/-- C6 (amended).  Whenever the frame is wide enough for the right-anchored
region (`box_width + 10 ≤ frame_width`) and tall enough for the
bottom-anchored region (`260 ≤ frame_height`), all three rectangles have
`x ≥ 0` and `y ≥ 0`. -/
theorem positions_nonneg (w h bw bh : Int) (hw : bw + 10 ≤ w)
    (hh : 260 ≤ h) :
    ∀ p ∈ getWatermarkPositions w h bw bh, 0 ≤ p.x ∧ 0 ≤ p.y := by
  intro p hp
  simp only [getWatermarkPositions, List.mem_cons,
    List.not_mem_nil, or_false] at hp
  rcases hp with h1 | h1 | h1 <;> subst h1
  · exact ⟨by norm_num, by norm_num⟩
  · exact ⟨by show (0 : Int) ≤ w - bw - 10; omega,
      by show (0 : Int) ≤ 592; norm_num⟩
  · exact ⟨by show (0 : Int) ≤ 25; norm_num,
      by show (0 : Int) ≤ h - 260; omega⟩

/-- C6 (witness). -/
theorem positions_nonneg_witness :
    (0 : Int) ≤ (⟨1771, 592, 139, 51⟩ : WatermarkPosition).x ∧
    (0 : Int) ≤ (⟨1771, 592, 139, 51⟩ : WatermarkPosition).y :=
  positions_nonneg 1920 1080 139 51 (by norm_num) (by norm_num)
    ⟨1771, 592, 139, 51⟩ (by decide)

/-- C7 (counterexample).  The claim says non-positive box dimensions are
rejected eagerly at construction.  They are not validated at all: a
constructor call with a valid kernel but box width 0 and box height −5
succeeds. -/
theorem init_accepts_nonpositive_box :
    (watermarkProcessorInit "in.mp4" "out.mp4" 51 none 0 (-5)).isOk = true := by
  decide

/-- C7 (amended).  Construction validates only the blur kernel:
`blur_kernel_size = 50` (even) and `-3` (non-positive) are rejected before
any frame is read, and in general construction succeeds exactly when the
kernel is positive and odd; box dimensions are never checked. -/
theorem init_validation (ip op : String) (pd : Option ℚ) (ww wh b : Int) :
    (watermarkProcessorInit ip op 50 pd ww wh).isOk = false ∧
    (watermarkProcessorInit ip op (-3) pd ww wh).isOk = false ∧
    ((watermarkProcessorInit ip op b pd ww wh).isOk = true ↔
      0 < b ∧ b % 2 = 1) := by
  refine ⟨?_, ?_, ?_⟩
  · simp [watermarkProcessorInit, Except.isOk, Except.toBool]
  · simp [watermarkProcessorInit, Except.isOk, Except.toBool]
  · unfold watermarkProcessorInit
    split_ifs with hcond
    · simp only [Except.isOk, Except.toBool, Bool.false_eq_true, false_iff]
      omega
    · simp only [Except.isOk, Except.toBool, true_iff]
      push_neg at hcond
      omega

/-- C7 (witness). -/
theorem init_validation_witness :
    (watermarkProcessorInit "a.mp4" "b.mp4" 50 none 139 51).isOk = false :=
  (init_validation "a.mp4" "b.mp4" none 139 51 7).1

/-- The mask after `n` feathering iterations is the product of the
per-iteration factors at the cell. -/
theorem maskAux_eq_prod (height width featherSize r c : Nat) :
    ∀ n, maskAux height width featherSize n r c =
      ∏ i ∈ Finset.range n, featherFactor height width featherSize r c i
  | 0 => by simp [maskAux]
  | n + 1 => by
    rw [Finset.prod_range_succ,
      ← maskAux_eq_prod height width featherSize r c n]
    simp only [maskAux, featherStep, featherFactor]
    split_ifs <;> ring

/-- When the feather fits both dimensions, the mask value at a cell is the
product of its row edge weight and its column edge weight. -/
theorem createFeatheredMask_eq_edgeWeights (w h k r c : Nat)
    (hkh : k ≤ h) (hkw : k ≤ w) :
    createFeatheredMask w h k r c = edgeWeight h k r * edgeWeight w k c := by
  unfold createFeatheredMask
  rw [maskAux_eq_prod]
  unfold edgeWeight
  rw [← Finset.prod_mul_distrib]
  apply Finset.prod_congr rfl
  intro i hi
  rw [Finset.mem_range] at hi
  unfold featherFactor
  rw [if_pos (by omega : i < h ∧ i < w)]
  ring

/-- A coordinate at distance at least `k` from both ends of its axis is hit
by no line, so its edge weight is 1. -/
theorem edgeWeight_one (n k d : Nat) (h1 : k ≤ d) (h2 : k ≤ n - 1 - d) :
    edgeWeight n k d = 1 := by
  unfold edgeWeight
  apply Finset.prod_eq_one
  intro i hi
  rw [Finset.mem_range] at hi
  rw [if_neg (by omega), if_neg (by omega)]
  norm_num

/-- A coordinate at distance `d < k` from the low end of its axis (and at
least `k` from the high end) is hit exactly by iteration `d`, giving edge
weight `d / k`. -/
theorem edgeWeight_near_lo (n k d : Nat) (h1 : d < k) (h2 : k ≤ n - 1 - d) :
    edgeWeight n k d = featherAlpha d k := by
  unfold edgeWeight
  have key : ∀ i ∈ Finset.range k,
      (if d = i then featherAlpha i k else 1) *
        (if d = n - 1 - i then featherAlpha i k else 1) =
      if d = i then featherAlpha i k else 1 := by
    intro i hi
    rw [Finset.mem_range] at hi
    have hno : ¬ (d = n - 1 - i) := by omega
    rw [if_neg hno, mul_one]
  rw [Finset.prod_congr rfl key, Finset.prod_ite_eq,
    if_pos (Finset.mem_range.mpr h1)]

/-- A coordinate at distance `n - 1 - d < k` from the high end of its axis
(and at least `k` from the low end) is hit exactly by iteration
`n - 1 - d`, giving edge weight `(n - 1 - d) / k`. -/
theorem edgeWeight_near_hi (n k d : Nat) (h0 : d < n) (h1 : k ≤ d)
    (h2 : n - 1 - d < k) :
    edgeWeight n k d = featherAlpha (n - 1 - d) k := by
  unfold edgeWeight
  have key : ∀ i ∈ Finset.range k,
      (if d = i then featherAlpha i k else 1) *
        (if d = n - 1 - i then featherAlpha i k else 1) =
      if n - 1 - d = i then featherAlpha i k else 1 := by
    intro i hi
    rw [Finset.mem_range] at hi
    have hno : ¬ (d = i) := by omega
    rw [if_neg hno, one_mul]
    by_cases hc : n - 1 - d = i
    · have hyes : d = n - 1 - i := by omega
      rw [if_pos hyes, if_pos hc]
    · have hno2 : ¬ (d = n - 1 - i) := by omega
      rw [if_neg hno2, if_neg hc]
  rw [Finset.prod_congr rfl key, Finset.prod_ite_eq,
    if_pos (Finset.mem_range.mpr h2)]

/-- A cell at distance at least `k` from all four edges keeps weight 1: no
feathering iteration touches it. -/
theorem createFeatheredMask_interior_one (w h k r c : Nat)
    (h1 : k ≤ r) (h2 : k ≤ h - 1 - r) (h3 : k ≤ c) (h4 : k ≤ w - 1 - c) :
    createFeatheredMask w h k r c = 1 := by
  unfold createFeatheredMask
  rw [maskAux_eq_prod]
  apply Finset.prod_eq_one
  intro i hi
  rw [Finset.mem_range] at hi
  unfold featherFactor
  have e1 : ¬ (r = i) := by omega
  have e2 : ¬ (r = h - 1 - i) := by omega
  have e3 : ¬ (c = i) := by omega
  have e4 : ¬ (c = w - 1 - i) := by omega
  rw [if_neg e1, if_neg e2, if_neg e3, if_neg e4]
  split_ifs <;> norm_num

/-- C3.  Feathered-mask values: zero feather gives the all-ones mask; for a
positive feather the four corner cells are exactly 0; the exact center of an
odd-sized mask larger than twice the feather is exactly 1; a cell at
0-indexed distance `i < k` from exactly one edge — top, bottom, left or
right — and at least `k` from the other three has weight `i / k`; and a
cell near two edges (any of the four corner pairs) gets the product of its
two ramp factors. -/
theorem feathered_mask_values :
    (∀ w h r c, createFeatheredMask w h 0 r c = 1) ∧
    (∀ w h k, 0 < k → 0 < w → 0 < h →
      createFeatheredMask w h k 0 0 = 0 ∧
      createFeatheredMask w h k 0 (w - 1) = 0 ∧
      createFeatheredMask w h k (h - 1) 0 = 0 ∧
      createFeatheredMask w h k (h - 1) (w - 1) = 0) ∧
    (∀ w h k, 0 < k → w % 2 = 1 → h % 2 = 1 → 2 * k < w → 2 * k < h →
      createFeatheredMask w h k ((h - 1) / 2) ((w - 1) / 2) = 1) ∧
    (∀ w h k r c, r < k → k ≤ h - 1 - r → k ≤ c → k ≤ w - 1 - c →
      createFeatheredMask w h k r c = featherAlpha r k) ∧
    (∀ w h k r c, k ≤ r → r < h → h - 1 - r < k → k ≤ c → k ≤ w - 1 - c →
      createFeatheredMask w h k r c = featherAlpha (h - 1 - r) k) ∧
    (∀ w h k r c, k ≤ r → k ≤ h - 1 - r → c < k → k ≤ w - 1 - c →
      createFeatheredMask w h k r c = featherAlpha c k) ∧
    (∀ w h k r c, k ≤ r → k ≤ h - 1 - r → k ≤ c → c < w → w - 1 - c < k →
      createFeatheredMask w h k r c = featherAlpha (w - 1 - c) k) ∧
    (∀ w h k r c, r < k → k ≤ h - 1 - r → c < k → k ≤ w - 1 - c →
      createFeatheredMask w h k r c = featherAlpha r k * featherAlpha c k) ∧
    (∀ w h k r c, r < k → k ≤ h - 1 - r → k ≤ c → c < w → w - 1 - c < k →
      createFeatheredMask w h k r c
        = featherAlpha r k * featherAlpha (w - 1 - c) k) ∧
    (∀ w h k r c, k ≤ r → r < h → h - 1 - r < k → c < k → k ≤ w - 1 - c →
      createFeatheredMask w h k r c
        = featherAlpha (h - 1 - r) k * featherAlpha c k) ∧
    (∀ w h k r c, k ≤ r → r < h → h - 1 - r < k → k ≤ c → c < w →
      w - 1 - c < k →
      createFeatheredMask w h k r c
        = featherAlpha (h - 1 - r) k * featherAlpha (w - 1 - c) k) := by
  refine ⟨?_, ?_, ?_, ?_, ?_, ?_, ?_, ?_, ?_, ?_, ?_⟩
  · intro w h r c
    rfl
  · intro w h k hk hw hh
    have ha : featherAlpha 0 k = 0 := by simp [featherAlpha]
    have base : ∀ r c, (r = 0 ∨ r = h - 1) → (c = 0 ∨ c = w - 1) →
        createFeatheredMask w h k r c = 0 := by
      intro r c hr hc
      unfold createFeatheredMask
      rw [maskAux_eq_prod]
      apply Finset.prod_eq_zero (Finset.mem_range.mpr hk)
      unfold featherFactor
      rw [if_pos ⟨hh, hw⟩]
      rcases hr with rfl | rfl <;> rcases hc with rfl | rfl <;>
        simp [ha, Nat.sub_zero]
    exact ⟨base 0 0 (Or.inl rfl) (Or.inl rfl),
      base 0 (w - 1) (Or.inl rfl) (Or.inr rfl),
      base (h - 1) 0 (Or.inr rfl) (Or.inl rfl),
      base (h - 1) (w - 1) (Or.inr rfl) (Or.inr rfl)⟩
  · intro w h k hk hw2 hh2 hkw hkh
    exact createFeatheredMask_interior_one w h k ((h - 1) / 2) ((w - 1) / 2)
      (by omega) (by omega) (by omega) (by omega)
  · intro w h k r c h1 h2 h3 h4
    rw [createFeatheredMask_eq_edgeWeights w h k r c (by omega) (by omega),
      edgeWeight_near_lo h k r h1 h2, edgeWeight_one w k c h3 h4, mul_one]
  · intro w h k r c h1 h2 h3 h4 h5
    rw [createFeatheredMask_eq_edgeWeights w h k r c (by omega) (by omega),
      edgeWeight_near_hi h k r h2 h1 h3, edgeWeight_one w k c h4 h5, mul_one]
  · intro w h k r c h1 h2 h3 h4
    rw [createFeatheredMask_eq_edgeWeights w h k r c (by omega) (by omega),
      edgeWeight_one h k r h1 h2, edgeWeight_near_lo w k c h3 h4, one_mul]
  · intro w h k r c h1 h2 h3 h4 h5
    rw [createFeatheredMask_eq_edgeWeights w h k r c (by omega) (by omega),
      edgeWeight_one h k r h1 h2, edgeWeight_near_hi w k c h4 h3 h5, one_mul]
  · intro w h k r c h1 h2 h3 h4
    rw [createFeatheredMask_eq_edgeWeights w h k r c (by omega) (by omega),
      edgeWeight_near_lo h k r h1 h2, edgeWeight_near_lo w k c h3 h4]
  · intro w h k r c h1 h2 h3 h4 h5
    rw [createFeatheredMask_eq_edgeWeights w h k r c (by omega) (by omega),
      edgeWeight_near_lo h k r h1 h2, edgeWeight_near_hi w k c h4 h3 h5]
  · intro w h k r c h1 h2 h3 h4 h5
    rw [createFeatheredMask_eq_edgeWeights w h k r c (by omega) (by omega),
      edgeWeight_near_hi h k r h2 h1 h3, edgeWeight_near_lo w k c h4 h5]
  · intro w h k r c h1 h2 h3 h4 h5 h6
    rw [createFeatheredMask_eq_edgeWeights w h k r c (by omega) (by omega),
      edgeWeight_near_hi h k r h2 h1 h3, edgeWeight_near_hi w k c h5 h4 h6]

/-- C3 (witness): one instance per conjunct on a 41 × 41 mask with feather
10 (top/bottom/left/right ramps and all four corner pairs). -/
theorem feathered_mask_values_witness :
    createFeatheredMask 30 25 0 3 4 = 1 ∧
    createFeatheredMask 41 41 10 0 0 = 0 ∧
    createFeatheredMask 41 41 10 20 20 = 1 ∧
    createFeatheredMask 41 41 10 3 20 = featherAlpha 3 10 ∧
    createFeatheredMask 41 41 10 37 20 = featherAlpha 3 10 ∧
    createFeatheredMask 41 41 10 20 4 = featherAlpha 4 10 ∧
    createFeatheredMask 41 41 10 20 36 = featherAlpha 4 10 ∧
    createFeatheredMask 41 41 10 3 4 = featherAlpha 3 10 * featherAlpha 4 10 ∧
    createFeatheredMask 41 41 10 3 36
      = featherAlpha 3 10 * featherAlpha 4 10 ∧
    createFeatheredMask 41 41 10 37 4
      = featherAlpha 3 10 * featherAlpha 4 10 ∧
    createFeatheredMask 41 41 10 37 36
      = featherAlpha 3 10 * featherAlpha 4 10 := by
  obtain ⟨m1, m2, m3, m4, m5, m6, m7, m8, m9, m10, m11⟩ :=
    feathered_mask_values
  exact ⟨m1 30 25 3 4,
    (m2 41 41 10 (by norm_num) (by norm_num) (by norm_num)).1,
    m3 41 41 10 (by norm_num) (by norm_num) (by norm_num) (by norm_num)
      (by norm_num),
    m4 41 41 10 3 20 (by norm_num) (by norm_num) (by norm_num) (by norm_num),
    m5 41 41 10 37 20 (by norm_num) (by norm_num) (by norm_num) (by norm_num)
      (by norm_num),
    m6 41 41 10 20 4 (by norm_num) (by norm_num) (by norm_num) (by norm_num),
    m7 41 41 10 20 36 (by norm_num) (by norm_num) (by norm_num) (by norm_num)
      (by norm_num),
    m8 41 41 10 3 4 (by norm_num) (by norm_num) (by norm_num) (by norm_num),
    m9 41 41 10 3 36 (by norm_num) (by norm_num) (by norm_num) (by norm_num)
      (by norm_num),
    m10 41 41 10 37 4 (by norm_num) (by norm_num) (by norm_num) (by norm_num)
      (by norm_num),
    m11 41 41 10 37 36 (by norm_num) (by norm_num) (by norm_num)
      (by norm_num) (by norm_num) (by norm_num)⟩

/-- Any instantiation of `_apply_blur_to_region` leaves every cell outside
the clamped region untouched, as long as the rectangle has `x ≥ 0` and
`y ≥ 0` (so that no Python negative-index slicing occurs). -/
theorem applyBlurToRegion_outside (blurFn : FrameF → FrameF)
    (featherSize : Nat) (H W : Nat) (frame : FrameF) (p : WatermarkPosition)
    (hx : 0 ≤ p.x) (hy : 0 ≤ p.y) (r c : Nat) (ch : Fin 3)
    (hout : ¬ insideClampedRegion H W p r c) :
    applyBlurToRegion blurFn featherSize H W frame p r c ch = frame r c ch := by
  simp only [applyBlurToRegion]
  by_cases hdeg : min (p.y + p.height) (H : Int) ≤ p.y ∨
      min (p.x + p.width) (W : Int) ≤ p.x
  · rw [if_pos hdeg]
  · rw [if_neg hdeg]
    push_neg at hdeg
    obtain ⟨hy2, hx2⟩ := hdeg
    show (if pySlice p.y H ≤ r ∧ r < pySlice (min (p.y + p.height) (H : Int)) H ∧
        pySlice p.x W ≤ c ∧ c < pySlice (min (p.x + p.width) (W : Int)) W
      then _ else frame r c ch) = frame r c ch
    have hcond : ¬ (pySlice p.y H ≤ r ∧
        r < pySlice (min (p.y + p.height) (H : Int)) H ∧
        pySlice p.x W ≤ c ∧
        c < pySlice (min (p.x + p.width) (W : Int)) W) := by
      intro hin
      apply hout
      unfold insideClampedRegion
      unfold pySlice at hin
      rw [if_neg (by omega), if_neg (by omega), if_neg (by omega),
        if_neg (by omega)] at hin
      omega
    rw [if_neg hcond]

/-- C2.  For any frame, any rectangle with `x ≥ 0` and `y ≥ 0`, and any
valid (positive odd) kernel size, both the standard and the edge-aware blur
transforms leave every pixel strictly outside the rectangle clamped to the
frame bounds bit-identical to the input, whatever the external Gaussian and
bilateral filters compute. -/
theorem blur_preserves_outside (gauss : Nat → FrameF → FrameF)
    (bilateral : FrameF → FrameF) (k : Nat) (hk1 : 0 < k) (hk2 : k % 2 = 1)
    (H W : Nat) (frame : FrameF) (p : WatermarkPosition)
    (hx : 0 ≤ p.x) (hy : 0 ≤ p.y) (r c : Nat) (ch : Fin 3)
    (hout : ¬ insideClampedRegion H W p r c) :
    standardApplyBlurToRegion gauss k H W frame p r c ch = frame r c ch ∧
    advancedApplyBlurToRegion bilateral gauss k H W frame p r c ch
      = frame r c ch :=
  ⟨applyBlurToRegion_outside (gauss k) 10 H W frame p hx hy r c ch hout,
   applyBlurToRegion_outside (fun roi => gauss k (gauss k (bilateral roi)))
     15 H W frame p hx hy r c ch hout⟩

/-- C2 (witness). -/
theorem blur_preserves_outside_witness :
    standardApplyBlurToRegion (fun _ _f => fun _ _ _ => (0 : ℚ)) 51 4 4
      (fun _ _ _ => (0 : ℚ)) ⟨0, 0, 2, 2⟩ 3 3 0 = 0 ∧
    advancedApplyBlurToRegion (fun f => f) (fun _ _f => fun _ _ _ => (0 : ℚ))
      51 4 4 (fun _ _ _ => (0 : ℚ)) ⟨0, 0, 2, 2⟩ 3 3 0 = 0 :=
  blur_preserves_outside (fun _ _f => fun _ _ _ => (0 : ℚ)) (fun f => f) 51
    (by norm_num) (by norm_num) 4 4 (fun _ _ _ => (0 : ℚ)) ⟨0, 0, 2, 2⟩
    (by norm_num) (by norm_num) 3 3 0 (by decide)

/-- C4 (code evaluated at the failing input).  The rectangle
`x = -101, y = 0, width = 31, height = 31` lies entirely left of a
101 × 101 frame (`x + width = -70 ≤ 0`), so its clamped intersection with
the frame is empty and the claim requires a pass-through.  The guard
`x_end <= x` does not fire (`-70 ≤ -101` is false) and NumPy's
negative-index slicing turns `frame[0:31, -101:-70]` into the wrapped
region `frame[0:31, 0:31]`: with an all-ones frame and a blur stub
returning zero, output pixel `(15, 15, 0)` — in the mask's interior, where
the blend weight is 1 — becomes `0` instead of staying `1`.  The two
`pySlice` conjuncts exhibit the wraparound of the slice bounds. -/
theorem blur_wraparound_failing_input :
    pySlice (-101) 101 = 0 ∧ pySlice (-70) 101 = 31 ∧
    standardApplyBlurToRegion (fun _ _f => fun _ _ _ => (0 : ℚ)) 51 101 101
      (fun _ _ _ => (1 : ℚ)) ⟨-101, 0, 31, 31⟩ 15 15 0 = 0 := by
  refine ⟨by decide, by decide, ?_⟩
  simp only [standardApplyBlurToRegion, applyBlurToRegion]
  rw [if_neg (by omega)]
  rw [if_pos (by decide)]
  have hLo : pySlice ((⟨-101, 0, 31, 31⟩ : WatermarkPosition).y) 101 = 0 := by
    decide
  have hHi : pySlice (min ((⟨-101, 0, 31, 31⟩ : WatermarkPosition).y +
      (⟨-101, 0, 31, 31⟩ : WatermarkPosition).height) ((101 : Nat) : Int))
      101 = 31 := by decide
  have hcLo : pySlice ((⟨-101, 0, 31, 31⟩ : WatermarkPosition).x) 101 = 0 := by
    decide
  have hcHi : pySlice (min ((⟨-101, 0, 31, 31⟩ : WatermarkPosition).x +
      (⟨-101, 0, 31, 31⟩ : WatermarkPosition).width) ((101 : Nat) : Int))
      101 = 31 := by decide
  rw [hLo, hHi, hcLo, hcHi]
  have hmask : createFeatheredMask (31 - 0) (31 - 0) 10 (15 - 0) (15 - 0) = 1 :=
    createFeatheredMask_interior_one 31 31 10 15 15 (by norm_num)
      (by norm_num) (by norm_num) (by norm_num)
  rw [hmask]
  norm_num

/-- The frame loop, started at counter `n`, takes the first `total - n`
available frames and reports the counters `n+1, n+2, …` once per emitted
frame. -/
theorem processFrames_eq (t : FrameF → FrameF) (total : Nat)
    (frames : List FrameF) : ∀ n : Nat,
      processFrames t total frames n =
        ((frames.take (total - n)).map t,
          List.range' (n + 1) (min (total - n) frames.length) 1) := by
  induction frames with
  | nil =>
    intro n
    simp [processFrames]
  | cons f rest ih =>
    intro n
    simp only [processFrames]
    by_cases hn : n < total
    · rw [if_pos hn, ih (n + 1)]
      obtain ⟨m, hm⟩ : ∃ m, total - n = m + 1 := ⟨total - n - 1, by omega⟩
      have h2 : total - (n + 1) = m := by omega
      rw [List.length_cons, hm, h2]
      have hmin : min (m + 1) (rest.length + 1) = min m rest.length + 1 := by
        omega
      rw [List.take_succ_cons, List.map_cons, hmin, List.range'_succ]
    · rw [if_neg hn]
      have h0 : total - n = 0 := by omega
      simp [h0]

/-- C8.  With a frame limit set, the pipeline emits exactly
`min(total_frame_count, frame_limit)` frames, in input order (the map of
the transform over the input prefix), and reports progress exactly once per
emitted frame with strictly increasing `current` values `1, 2, …`; when the
source is exhausted early it stops with fewer output frames and no
error. -/
theorem pipeline_preview_truncation (t : FrameF → FrameF)
    (frames : List FrameF) (totalFrameCount limit : Nat) :
    processFrames t (effectiveTotalFrames totalFrameCount (some limit))
        frames 0 =
      ((frames.take (min totalFrameCount limit)).map t,
        List.range' 1 (min (min totalFrameCount limit) frames.length) 1) ∧
    (processFrames t (effectiveTotalFrames totalFrameCount (some limit))
        frames 0).1.length = min (min totalFrameCount limit) frames.length ∧
    (processFrames t (effectiveTotalFrames totalFrameCount (some limit))
        frames 0).2.length = min (min totalFrameCount limit) frames.length ∧
    List.Pairwise (· < ·)
      (processFrames t (effectiveTotalFrames totalFrameCount (some limit))
        frames 0).2 ∧
    (frames.length = totalFrameCount →
      (processFrames t (effectiveTotalFrames totalFrameCount (some limit))
        frames 0).1.length = min totalFrameCount limit) := by
  have he := processFrames_eq t (min totalFrameCount limit) frames 0
  rw [Nat.sub_zero] at he
  have heff : effectiveTotalFrames totalFrameCount (some limit) =
      min totalFrameCount limit := rfl
  rw [heff, he]
  refine ⟨rfl, ?_, ?_, ?_, ?_⟩
  · simp [List.length_take]
  · simp
  · exact List.pairwise_lt_range' 1 _ 1
  · intro hlen
    simp [List.length_take, hlen]

/-- C8 (witness). -/
theorem pipeline_preview_truncation_witness :
    (processFrames (fun f => f) (effectiveTotalFrames 3 (some 2))
      [(fun _ _ _ => (0 : ℚ)), (fun _ _ _ => (1 : ℚ)),
       (fun _ _ _ => (2 : ℚ))] 0).1.length = min 3 2 :=
  (pipeline_preview_truncation (fun f => f)
    [(fun _ _ _ => (0 : ℚ)), (fun _ _ _ => (1 : ℚ)),
     (fun _ _ _ => (2 : ℚ))] 3 2).2.2.2.2 rfl

end SoraWatermark
